import Mathlib

/-!
Verification of `uniform_ellipsoid_sampler.py` (class `EllipsoidSampler`).

The source operates on torch tensors.  We embed tensors as an explicit
shape together with row-major flat data over `ℚ` (the arithmetic used by the
code is field arithmetic: squaring, division, sums; `ℚ` keeps every
definition executable).  Division by zero follows the Lean convention
`x / 0 = 0`; no claim below depends on a division-by-zero draw.

The three failure modes of the source are modelled explicitly:
  * the two `assert`s in `__init__` (the spec names them `ShapeMismatchError`),
  * the `assert (len(x.shape) == 2)` in `f` (the spec names it `DimensionError`),
  * torch's broadcasting failure when an elementwise op meets incompatible
    shapes (a backend `RuntimeError`, distinct from the assert),
  * the `assert(len(idx) == num_points)` in `sample`
    (the spec names it `SamplingValidationError`).

Randomness (`torch.randn`, `torch.rand`) is embedded by passing the drawn
values as parameters: `z` is the `(num_points, dims)` matrix of normal draws
and `scale` the single uniform draw, with the shape of `z` and the range of
`scale` appearing as hypotheses where a theorem needs them.
-/

/-- A torch tensor: a shape and row-major flat data. -/
structure Tensor where
  shape : List Nat
  data : List ℚ
deriving DecidableEq

/-- `len(t.shape)`: the rank of a tensor. -/
def Tensor.rank (t : Tensor) : Nat := t.shape.length

/-- The state stored by `EllipsoidSampler.__init__` after its asserts pass:
`self.mu`, `self.axes`, `self.dims = mu.shape[0]`.  The `use_cuda` flag only
moves data between devices and never changes a value, so it is not modelled. -/
structure EllipsoidSampler where
  mu : List ℚ
  axes : List ℚ
  dims : Nat
deriving DecidableEq

/-- Failure of `__init__` (an `assert`; the spec calls it `ShapeMismatchError`). -/
inductive InitError where
  | shapeMismatch
deriving DecidableEq

/-- Failures of `f`: the explicit 2-D assert (the spec calls it
`DimensionError`), or torch failing to broadcast `Xsq / Asq`. -/
inductive EvalError where
  | dimAssert
  | broadcastMismatch
deriving DecidableEq

/-- Failures of `sample`: the final count assert (the spec calls it
`SamplingValidationError`), or a failure propagated from the internal
call to `f`. -/
inductive SampleError where
  | validationAssert
  | evalFailure (e : EvalError)
deriving DecidableEq

/-- `EllipsoidSampler.__init__(mu, axes)`:
`assert(len(mu.shape) == len(axes.shape) == 1)` (a Python chained comparison:
`len(mu.shape) == len(axes.shape)` and `len(axes.shape) == 1`), then
`assert(mu.shape == axes.shape)`; on success stores `mu`, `axes` and
`dims = mu.shape[0]`. -/
def init (mu axes : Tensor) : Except InitError EllipsoidSampler :=
  if mu.rank = axes.rank ∧ axes.rank = 1 then
    if mu.shape = axes.shape then
      Except.ok { mu := mu.data, axes := axes.data, dims := mu.shape.headD 0 }
    else
      Except.error InitError.shapeMismatch
  else
    Except.error InitError.shapeMismatch

/-- `torch.sum(r**2)` over one row. -/
def sumSq (r : List ℚ) : ℚ := (r.map (fun x => x ^ 2)).sum

/-- Split row-major flat data into `b` rows of `m` entries each:
how a rank-2 torch tensor of shape `(b, m)` is read. -/
def chunk (m : Nat) : Nat → List ℚ → List (List ℚ)
  | 0, _ => []
  | b + 1, l => l.take m :: chunk m b (l.drop m)

/-- The rows of a rank-2 tensor. -/
def matRows (t : Tensor) : List (List ℚ) :=
  match t.shape with
  | [b, m] => chunk m b t.data
  | _ => []

/-- torch broadcast division of a row `r` (length `M`) by a vector `a`
(length `N`), assuming the shapes are compatible (`M = N`, `M = 1` or
`N = 1`): equal lengths divide pointwise, a length-1 operand is stretched. -/
def bdiv (r a : List ℚ) : List ℚ :=
  if r.length = a.length then List.zipWith (· / ·) r a
  else if r.length = 1 then a.map (fun ai => r.headD 0 / ai)
  else r.map (fun ri => ri / a.headD 0)

/-- One row of `f`: `Xsq = x**2`, `Asq = axes**2`, `div = Xsq / Asq`
(broadcast), `eq = sum(div, dim=-1) - 1`. -/
def fRowVal (axes r : List ℚ) : ℚ :=
  (bdiv (r.map (fun v => v ^ 2)) (axes.map (fun v => v ^ 2))).sum - 1

/-- `EllipsoidSampler.f(x)`: `assert (len(x.shape) == 2)`; then
`torch.sum((x**2) / (axes**2), dim=-1) - 1`.  The division broadcasts the
inner dimension `m` of `x` against `n = len(axes)`; torch raises a runtime
error when `m ≠ n`, `m ≠ 1` and `n ≠ 1`. -/
def f (s : EllipsoidSampler) (x : Tensor) : Except EvalError (List ℚ) :=
  if x.rank = 2 then
    if (x.shape.drop 1).headD 0 = s.axes.length ∨ (x.shape.drop 1).headD 0 = 1 ∨
        s.axes.length = 1 then
      Except.ok ((matRows x).map (fun r => fRowVal s.axes r))
    else
      Except.error EvalError.broadcastMismatch
  else
    Except.error EvalError.dimAssert

/-- Step 1 of `sample`: `z_on_unit_sphere = z / torch.sum(z**2, dim=-1).view((num_points, 1))`
— each row of the drawn matrix is divided by that row's sum of squared
components (not by its square root). -/
def sampleDirections (z : List (List ℚ)) : List (List ℚ) :=
  z.map (fun r => r.map (fun x => x / sumSq r))

/-- Pack a list of rows back into a rank-2 tensor, as the shape of
`z_shifted` is `(num_points, dims)`. -/
def Tensor.ofMat (rows : List (List ℚ)) : Tensor :=
  { shape := [rows.length, (rows.headD []).length], data := rows.flatten }

/-- `EllipsoidSampler.sample(num_points)` with the random draws made
explicit: `z` stands for `torch.randn((num_points, dims))` and `scale` for
`torch.rand((1,))`.  Steps: divide each row of `z` by its sum of squares,
multiply by the single `scale`, multiply elementwise by `axes`, add `mu`,
then `idx = (f(z_shifted) <= 0)` and `assert(len(idx) == num_points)`. -/
def sample (s : EllipsoidSampler) (numPoints : Nat) (z : List (List ℚ))
    (scale : ℚ) : Except SampleError (List (List ℚ)) :=
  let zUnit := sampleDirections z
  let zScaled := zUnit.map (fun r => r.map (fun x => x * scale))
  let zEll := zScaled.map (fun r => List.zipWith (· * ·) r s.axes)
  let zShifted := zEll.map (fun r => List.zipWith (· + ·) r s.mu)
  match f s (Tensor.ofMat zShifted) with
  | Except.error e => Except.error (SampleError.evalFailure e)
  | Except.ok vals =>
      let idx := vals.map (fun v => decide (v ≤ 0))
      if idx.length = numPoints then Except.ok zShifted
      else Except.error SampleError.validationAssert

/-- The number of rows of a batch whose implicit value is ≤ 0 (the quantity
the validation step is supposed to compare with `num_points`); `none` when
`f` itself fails. -/
def insideCount (s : EllipsoidSampler) (rows : List (List ℚ)) : Option Nat :=
  (f s (Tensor.ofMat rows)).toOption.map
    (fun vals => (vals.filter (fun v => decide (v ≤ 0))).length)

/-! ## Helper lemmas about the embedding -/

theorem chunk_length (m : Nat) : ∀ (b : Nat) (l : List ℚ), (chunk m b l).length = b := by
  intro b
  induction b with
  | zero => intro l; simp [chunk]
  | succ b ih => intro l; simp [chunk, ih]

theorem chunk_mem_length (m : Nat) :
    ∀ (b : Nat) (l : List ℚ), l.length = b * m →
      ∀ r ∈ chunk m b l, r.length = m := by
  intro b
  induction b with
  | zero => intro l _ r hr; simp [chunk] at hr
  | succ b ih =>
      intro l hl r hr
      simp only [chunk, List.mem_cons] at hr
      rcases hr with hr | hr
      · subst hr
        have : m ≤ l.length := by
          rw [hl, Nat.succ_mul]
          exact Nat.le_add_left m (b * m)
        simp [List.length_take, Nat.min_eq_left this]
      · refine ih (l.drop m) ?_ r hr
        rw [List.length_drop, hl, Nat.succ_mul, Nat.add_sub_cancel]

/-- Pointwise form of the broadcast division when the two operands have the
same length: `(x**2) / (a**2)` is `(x/a)**2` componentwise. -/
theorem zipWith_sq_div : ∀ (r a : List ℚ),
    List.zipWith (· / ·) (r.map (fun v => v ^ 2)) (a.map (fun v => v ^ 2)) =
      List.zipWith (fun xi ai => (xi / ai) ^ 2) r a := by
  intro r
  induction r with
  | nil => intro a; simp
  | cons x r ih =>
      intro a
      cases a with
      | nil => simp
      | cons a0 a => simp [ih, div_pow]

/-- The per-row quadratic form as the spec words it:
`Σᵢ (xᵢ / axisᵢ)² − 1`. -/
def quadFormSpec (axes r : List ℚ) : ℚ :=
  (List.zipWith (fun xi ai => (xi / ai) ^ 2) r axes).sum - 1

theorem fRowVal_eq_quadFormSpec (axes r : List ℚ) (h : r.length = axes.length) :
    fRowVal axes r = quadFormSpec axes r := by
  unfold fRowVal quadFormSpec bdiv
  rw [if_pos (by simp [h]), zipWith_sq_div]

/-! ## Concrete models used by the claim instances -/

/-- The unit disk in the plane: `mu = [0,0]`, `axes = [1,1]`. -/
def unitDiskModel : EllipsoidSampler := { mu := [0, 0], axes := [1, 1], dims := 2 }

/-- The ellipse of the spec's concrete scenario: `mu = [0,0]`, `axes = [2,1]`. -/
def ellipseModel : EllipsoidSampler := { mu := [0, 0], axes := [2, 1], dims := 2 }

/-- The offset unit sphere of the spec's concrete scenario:
`mu = [1,1,1]`, `axes = [1,1,1]`. -/
def offsetSphereModel : EllipsoidSampler :=
  { mu := [1, 1, 1], axes := [1, 1, 1], dims := 3 }

/-- The origin-centred unit sphere in three dimensions. -/
def sphereModel : EllipsoidSampler := { mu := [0, 0, 0], axes := [1, 1, 1], dims := 3 }

/-! ## Claim theorems -/

/-- Claim C1: refuted on the code.  With the unit-disk model, the draw
`z = [[1/10, 0]]`, `scale = 1/2` makes `sample 1` return the point `[5, 0]`,
and `evaluate` on that returned batch yields `24 > 0`: the sampled point lies
far outside the ellipsoid, yet the call returns it (the row of `z` has norm
`1/10 < scale`, and dividing by the squared norm sends it outside). -/
theorem sample_can_return_point_outside :
    sample unitDiskModel 1 [[1/10, 0]] (1/2) = Except.ok [[5, 0]] ∧
    f unitDiskModel (Tensor.ofMat [[5, 0]]) = Except.ok [24] ∧
    ¬ ((24 : ℚ) ≤ 0) := by
  refine ⟨?_, ?_, by norm_num⟩
  · norm_num [sample, sampleDirections, sumSq, f, fRowVal, bdiv, matRows, chunk,
      Tensor.ofMat, Tensor.rank, unitDiskModel]
  · norm_num [f, fRowVal, bdiv, matRows, chunk, Tensor.ofMat, Tensor.rank, unitDiskModel]

/-- Claim C2: refuted on the code.  `idx = (f(z_shifted) <= 0)` is a boolean
mask whose length is always `num_points`, so `assert(len(idx) == num_points)`
never fires: with the unit-disk model and draw `z = [[1/10, 0]]`,
`scale = 3/4`, the returned batch `[[15/2, 0]]` has zero rows satisfying the
predicate (`insideCount = 0 ≠ 1`), yet `sample` returns it normally instead
of failing with `SamplingValidationError`. -/
theorem sample_validation_check_vacuous :
    sample unitDiskModel 1 [[1/10, 0]] (3/4) = Except.ok [[15/2, 0]] ∧
    insideCount unitDiskModel [[15/2, 0]] = some 0 ∧
    (0 : Nat) ≠ 1 := by
  refine ⟨?_, ?_, by norm_num⟩
  · norm_num [sample, sampleDirections, sumSq, f, fRowVal, bdiv, matRows, chunk,
      Tensor.ofMat, Tensor.rank, unitDiskModel]
  · norm_num [insideCount, f, fRowVal, bdiv, matRows, chunk, Tensor.ofMat,
      Tensor.rank, unitDiskModel, Except.toOption]

/-- Claim C3: refuted on the code.  `f` squares `x` itself, not `x - mu`,
so on the model with `center = [1,1,1]`, `semiAxes = [1,1,1]` the single-row
batch holding the center evaluates to `[2]`, not `[-1]`. -/
theorem evaluate_at_center_not_minus_one :
    f offsetSphereModel { shape := [1, 3], data := [1, 1, 1] } = Except.ok [2] ∧
    (2 : ℚ) ≠ -1 := by
  refine ⟨?_, by norm_num⟩
  norm_num [f, fRowVal, bdiv, matRows, chunk, Tensor.rank, offsetSphereModel]

/-- Claim C5: refuted on the code.  The drawn row `z = [2, 0]` (nonzero) is
divided by its sum of squares `4`, producing the direction row `[1/2, 0]`
whose Euclidean norm is `1/2`, not `1`. -/
theorem direction_row_norm_not_one :
    sampleDirections [[2, 0]] = [[1/2, 0]] ∧
    Real.sqrt ((sumSq ((sampleDirections [[2, 0]]).headD []) : ℚ) : ℝ) ≠ 1 := by
  constructor
  · norm_num [sampleDirections, sumSq]
  · rw [Ne, Real.sqrt_eq_one]
    norm_num [sampleDirections, sumSq]

/-- Claim C8, counterexample: with the three-axis model (`N = 3`) the 2-D
batch of shape `(1, 1)` has mismatched inner dimension `1 ≠ 3`, yet `f`
raises no error at all: the length-1 row broadcasts against the axes and the
call returns `[74]`. -/
theorem evaluate_mismatch_no_dim_error :
    f sphereModel { shape := [1, 1], data := [5] } = Except.ok [74] ∧
    (1 : Nat) ≠ 3 := by
  refine ⟨?_, by norm_num⟩
  norm_num [f, fRowVal, bdiv, matRows, chunk, Tensor.rank, sphereModel]

/-- Claim C10: the constructor checks only ranks and shape equality, never
positivity: with `center = [1]` and `semiAxes = [-1]` (a negative axis)
construction succeeds and stores the negative axis. -/
theorem init_accepts_nonpositive_axes :
    init { shape := [1], data := [1] } { shape := [1], data := [-1] } =
      Except.ok { mu := [1], axes := [-1], dims := 1 } ∧
    ¬ ((0 : ℚ) < -1) := by
  refine ⟨?_, by norm_num⟩
  norm_num [init, Tensor.rank]

theorem getD_map_div (c : ℚ) : ∀ (r : List ℚ) (j : Nat),
    (r.map (fun x => x / c)).getD j 0 = r.getD j 0 / c := by
  intro r
  induction r with
  | nil => intro j; simp
  | cons x r ih =>
      intro j
      cases j with
      | zero => simp
      | succ j => simp only [List.map_cons, List.getD_cons_succ]; exact ih j

theorem sampleDirections_getD (z : List (List ℚ)) : ∀ (i : Nat),
    (sampleDirections z).getD i [] =
      (z.getD i []).map (fun x => x / sumSq (z.getD i [])) := by
  induction z with
  | nil => intro i; simp [sampleDirections]
  | cons r z ih =>
      intro i
      cases i with
      | zero => simp [sampleDirections]
      | succ i => simpa [sampleDirections] using ih i

/-- Claim C4: the Directional Sampler arranges the `B · N` drawn values as a
`(B, N)` matrix and divides every component of each row by that row's sum of
squared components (the squared norm, not its square root): the resulting
matrix keeps shape `(B, N)` and its `(i, j)` entry is `zᵢⱼ / Σₖ zᵢₖ²`. -/
theorem directional_rows_divided_by_squared_norm (B N : Nat) (z : List (List ℚ))
    (hB : z.length = B) (hrows : ∀ r ∈ z, r.length = N) :
    (sampleDirections z).length = B ∧
    (∀ r ∈ sampleDirections z, r.length = N) ∧
    (∀ i j, ((sampleDirections z).getD i []).getD j 0 =
      (z.getD i []).getD j 0 / sumSq (z.getD i [])) := by
  refine ⟨by simp [sampleDirections, hB], ?_, ?_⟩
  · intro r hr
    simp only [sampleDirections, List.mem_map] at hr
    obtain ⟨r0, hr0, rfl⟩ := hr
    simp [hrows r0 hr0]
  · intro i j
    rw [sampleDirections_getD, getD_map_div]

/-- Closed instance of claim C4 at `B = 1`, `N = 2`, `z = [[3, 4]]`. -/
theorem directional_rows_divided_by_squared_norm_witness :
    ((sampleDirections [[3, 4]]).getD 0 []).getD 0 0 = 3 / 25 :=
  ((directional_rows_divided_by_squared_norm 1 2 [[3, 4]] rfl
      (by intro r hr; simp only [List.mem_singleton] at hr; subst hr; rfl)).2.2 0 0).trans
    (by norm_num [sumSq])

theorem affine_row_comm (scale : ℚ) : ∀ (r a c : List ℚ),
    List.zipWith (· + ·) (List.zipWith (· * ·) (r.map (fun x => x * scale)) a) c =
      List.zipWith (· + ·) c (List.zipWith (fun dj aj => scale * dj * aj) r a) := by
  intro r
  induction r with
  | nil => intro a c; simp
  | cons x r ih =>
      intro a c
      cases a with
      | nil => simp
      | cons a0 a =>
          cases c with
          | nil => simp
          | cons c0 c =>
              simp only [List.map_cons, List.zipWith_cons_cons, ih, List.cons.injEq,
                and_true]
              ring

/-- One output row of `sample` as the spec words it:
`center + scale · direction · semiAxes`. -/
def specAffine (s : EllipsoidSampler) (scale : ℚ) (dir : List ℚ) : List ℚ :=
  List.zipWith (· + ·) s.mu (List.zipWith (fun dj aj => scale * dj * aj) dir s.axes)

/-- Claim C6: for a model whose stored vectors both have length `dims` and a
positive batch whose drawn rows have that length, `sample` succeeds and its
result is, row by row, `center + scale · direction · semiAxes`, with the one
scalar `scale` (drawn from `[0, 1)`) shared by every row. -/
theorem sample_shared_scale_affine (s : EllipsoidSampler) (d numPoints : Nat)
    (z : List (List ℚ)) (scale : ℚ)
    (hax : s.axes.length = d) (hmu : s.mu.length = d)
    (hB : z.length = numPoints) (hpos : 0 < numPoints)
    (hrows : ∀ r ∈ z, r.length = d)
    (_hs0 : 0 ≤ scale) (_hs1 : scale < 1) :
    sample s numPoints z scale =
      Except.ok ((sampleDirections z).map (fun dir => specAffine s scale dir)) := by
  have hshift :
      ((sampleDirections z).map (fun r => r.map (fun x => x * scale))
          |>.map (fun r => List.zipWith (· * ·) r s.axes)
          |>.map (fun r => List.zipWith (· + ·) r s.mu)) =
        (sampleDirections z).map (fun dir => specAffine s scale dir) := by
    simp only [List.map_map]
    refine List.map_congr_left ?_
    intro r _
    simpa [Function.comp, specAffine] using affine_row_comm scale r s.axes s.mu
  have hdirLen : ∀ r ∈ sampleDirections z, r.length = d := by
    intro r hr
    simp only [sampleDirections, List.mem_map] at hr
    obtain ⟨r0, hr0, rfl⟩ := hr
    simp [hrows r0 hr0]
  have hrowsLen : ∀ r ∈ (sampleDirections z).map (fun dir => specAffine s scale dir),
      r.length = d := by
    intro r hr
    simp only [List.mem_map] at hr
    obtain ⟨r0, hr0, rfl⟩ := hr
    simp [specAffine, List.length_zipWith, hmu, hax, hdirLen r0 hr0]
  have hMlen : ((sampleDirections z).map (fun dir => specAffine s scale dir)).length
      = numPoints := by
    simp [sampleDirections, hB]
  have hhead : ((((sampleDirections z).map (fun dir => specAffine s scale dir))).headD []).length = d := by
    rcases hM : (sampleDirections z).map (fun dir => specAffine s scale dir) with _ | ⟨r0, M⟩
    · rw [hM] at hMlen
      simp at hMlen
      omega
    · have : r0 ∈ (sampleDirections z).map (fun dir => specAffine s scale dir) := by
        rw [hM]; exact List.mem_cons_self r0 M
      simpa using hrowsLen r0 this
  have hofMat : Tensor.ofMat ((sampleDirections z).map (fun dir => specAffine s scale dir))
      = { shape := [numPoints, d],
          data := ((sampleDirections z).map (fun dir => specAffine s scale dir)).flatten } := by
    unfold Tensor.ofMat
    rw [hMlen, hhead]
  have hf : f s (Tensor.ofMat ((sampleDirections z).map (fun dir => specAffine s scale dir)))
      = Except.ok ((chunk d numPoints
          (((sampleDirections z).map (fun dir => specAffine s scale dir)).flatten)).map
          (fun r => fRowVal s.axes r)) := by
    rw [hofMat]
    simp [f, Tensor.rank, matRows, hax]
  simp only [sample, hshift, hf]
  split
  case isTrue h => rfl
  case isFalse h => exact absurd (by simp [chunk_length]) h

/-- Closed instance of claim C6: for the ellipse model with `z = [[1, 2]]`
and `scale = 1/2` the sampled point is `[1/5, 1/5]`. -/
theorem sample_shared_scale_affine_witness :
    sample ellipseModel 1 [[1, 2]] (1/2) = Except.ok [[1/5, 1/5]] :=
  (sample_shared_scale_affine ellipseModel 2 1 [[1, 2]] (1/2) rfl rfl rfl
      (by norm_num)
      (by intro r hr; simp only [List.mem_singleton] at hr; subst hr; rfl)
      (by norm_num) (by norm_num)).trans
    (by norm_num [sampleDirections, specAffine, sumSq, ellipseModel])

/-- Claim C7: on a valid model of dimension `N` and any 2-D batch of shape
`(B, N)`, `f` returns the vector of the per-row values `Σᵢ (xᵢ/axisᵢ)² − 1`,
of length exactly `B`.  Purity holds by construction: the embedding of `f`
is a function of the batch and the stored axes alone. -/
theorem evaluate_quadratic_form_rows (s : EllipsoidSampler) (B N : Nat) (x : Tensor)
    (hax : s.axes.length = N) (hshape : x.shape = [B, N])
    (hdata : x.data.length = B * N) :
    f s x = Except.ok ((matRows x).map (fun r => quadFormSpec s.axes r)) ∧
    ((matRows x).map (fun r => quadFormSpec s.axes r)).length = B := by
  have hrows : matRows x = chunk N B x.data := by
    unfold matRows
    rw [hshape]
  constructor
  · have hcond : (x.shape.drop 1).headD 0 = s.axes.length := by
      rw [hshape, hax]
      rfl
    have hrank : x.rank = 2 := by
      unfold Tensor.rank
      rw [hshape]
      rfl
    unfold f
    rw [if_pos hrank, if_pos (Or.inl hcond)]
    rw [hrows]
    refine congrArg Except.ok (List.map_congr_left ?_)
    intro r hr
    exact fRowVal_eq_quadFormSpec s.axes r
      ((chunk_mem_length N B x.data hdata r hr).trans hax.symm)
  · rw [List.length_map, hrows, chunk_length]

/-- The spec's concrete batch for the ellipse model: the rows `[0, 0]`
(the center) and `[2, 0]` (a boundary point), as a `(2, 2)` tensor. -/
def ellipseBatch : Tensor := { shape := [2, 2], data := [0, 0, 2, 0] }

/-- Closed instance of claim C7: on the ellipse model the batch
`[[0, 0], [2, 0]]` evaluates to `[-1, 0]`. -/
theorem evaluate_quadratic_form_rows_witness :
    f ellipseModel ellipseBatch = Except.ok [-1, 0] :=
  (evaluate_quadratic_form_rows ellipseModel 2 2 ellipseBatch rfl rfl rfl).1.trans
    (by norm_num [matRows, chunk, quadFormSpec, ellipseModel, ellipseBatch])

/-- Claim C8, amended: `f` raises the dimension assertion exactly when the
input is not 2-dimensional (so a rank-1 flat vector is rejected even when
its length is `N`); a 2-D input with mismatched inner dimension is *not*
caught by that check — when the inner dimension and `N` are both different
from 1 (and from each other) the failure is the backend broadcast error
instead. -/
theorem evaluate_rank_check_only (s : EllipsoidSampler) (x : Tensor) :
    (f s x = Except.error EvalError.dimAssert ↔ x.rank ≠ 2) ∧
    (∀ b m, x.shape = [b, m] → m ≠ s.axes.length → m ≠ 1 → s.axes.length ≠ 1 →
      f s x = Except.error EvalError.broadcastMismatch) := by
  constructor
  · unfold f
    split_ifs with hrank hbc <;> simp [hrank]
  · intro b m hshape hmn hm1 hn1
    have hrank : x.rank = 2 := by
      unfold Tensor.rank
      rw [hshape]
      rfl
    have hm : (x.shape.drop 1).headD 0 = m := by
      rw [hshape]
      rfl
    have hcond : ¬ ((x.shape.drop 1).headD 0 = s.axes.length ∨
        (x.shape.drop 1).headD 0 = 1 ∨ s.axes.length = 1) := by
      rw [hm]
      push_neg
      exact ⟨hmn, hm1, hn1⟩
    unfold f
    rw [if_pos hrank, if_neg hcond]

/-- Closed instance of the amended claim C8: the ellipse model (`N = 2`)
on a `(1, 3)` batch fails with the broadcast error, not the dimension
assertion. -/
theorem evaluate_rank_check_only_witness :
    f ellipseModel { shape := [1, 3], data := [1, 2, 3] } =
      Except.error EvalError.broadcastMismatch :=
  (evaluate_rank_check_only ellipseModel { shape := [1, 3], data := [1, 2, 3] }).2
    1 3 rfl (by decide) (by decide) (by decide)

/-- Claim C9: construction fails with the shape-mismatch assertion exactly
when the two inputs are not both rank-1 with equal shapes, and on two
rank-1 tensors of the same length `n` it succeeds, storing both data vectors
and setting the dimension to `n`. -/
theorem init_shape_validation (mu axes : Tensor) :
    (init mu axes = Except.error InitError.shapeMismatch ↔
      ¬ (mu.rank = 1 ∧ axes.rank = 1 ∧ mu.shape = axes.shape)) ∧
    (∀ n, mu.shape = [n] → axes.shape = [n] →
      init mu axes = Except.ok { mu := mu.data, axes := axes.data, dims := n }) := by
  constructor
  · unfold init
    split_ifs with h1 h2
    · exact iff_of_false (by simp) (not_not_intro ⟨h1.1.trans h1.2, h1.2, h2⟩)
    · exact iff_of_true rfl (fun hc => h2 hc.2.2)
    · exact iff_of_true rfl (fun hc => h1 ⟨hc.1.trans hc.2.1.symm, hc.2.1⟩)
  · intro n hmu hax
    have h1 : mu.rank = axes.rank ∧ axes.rank = 1 := by
      unfold Tensor.rank
      rw [hmu, hax]
      exact ⟨rfl, rfl⟩
    have h2 : mu.shape = axes.shape := by rw [hmu, hax]
    unfold init
    rw [if_pos h1, if_pos h2, hmu]
    rfl

/-- Closed instance of claim C9: two rank-1 length-2 tensors construct a
sampler storing both vectors with dimension 2. -/
theorem init_shape_validation_witness :
    init { shape := [2], data := [0, 0] } { shape := [2], data := [2, 1] } =
      Except.ok { mu := [0, 0], axes := [2, 1], dims := 2 } :=
  (init_shape_validation { shape := [2], data := [0, 0] }
    { shape := [2], data := [2, 1] }).2 2 rfl rfl
